import Mathlib

/-!
Verification of the deepfake-detection repository (dataset pipeline in
src/pipeline/dataset.py, model in src/modules.py, driver in src/inference.py)
against its natural-language specification.  The Python code is shallowly
embedded: lists stand for Python lists, `Int` for Python integers (floor
division via `Int.fdiv`, negative-index wrap-around in `pyGet`), and
`Except PyErr` for Python exception propagation.
-/

namespace DFD

/-- Python runtime errors that the embedded fragments can raise. -/
inductive PyErr where
  | indexError
  | zeroDivision
deriving DecidableEq

/-- Python list subscription `l[i]`: non-negative indices in range succeed,
negative indices wrap around from the end, anything else raises IndexError. -/
def pyGet {α : Type} [Inhabited α] (l : List α) (i : Int) : Except PyErr α :=
  if 0 ≤ i ∧ i < (l.length : Int) then .ok (l.getD i.toNat default)
  else if -(l.length : Int) ≤ i ∧ i < 0 then .ok (l.getD (i + l.length).toNat default)
  else .error .indexError

/-- A Python `for` loop that appends `f a` for each element, aborting at the
first raised exception (used to model the loops in `get_frame_names`,
`__getitem__` and the inference driver). -/
def tryMap {α β : Type} (f : α → Except PyErr β) : List α → Except PyErr (List β)
  | [] => .ok []
  | a :: as =>
    match f a with
    | .error e => .error e
    | .ok b =>
      match tryMap f as with
      | .error e => .error e
      | .ok bs => .ok (b :: bs)

/-- `CustomDataset.sort_files` (src/pipeline/dataset.py lines 107-110): the
numeric stems of the frame filenames are sorted ascending.  Filenames are
modelled by their integer stems (the name is the stem followed by ".png",
a bijection, so nothing is lost). -/
def sortFiles (stems : List Nat) : List Nat :=
  stems.insertionSort (· ≤ ·)

/-- Inner loop of `CustomDataset.get_frame_names`: collect
`file_names[i * interval + j]` for `j` in `range(group_size)`. -/
def buildGroup (files : List Nat) (interval : Int) (i gs : Nat) : Except PyErr (List Nat) :=
  tryMap (fun j : Nat => pyGet files ((i : Int) * interval + (j : Int))) (List.range gs)

/-- `CustomDataset.get_frame_names` (src/pipeline/dataset.py lines 88-105):
sort the listed filenames, compute
`interval = (total_frames - group_size) // num_groups` with Python floor
division (ZeroDivisionError when `num_groups = 0`), then gather
`num_groups` groups of `group_size` filenames. -/
def getFrameNames (numGroups gs : Nat) (stems : List Nat) : Except PyErr (List (List Nat)) :=
  if numGroups = 0 then .error .zeroDivision
  else
    let files := sortFiles stems
    let interval : Int := Int.fdiv ((files.length : Int) - (gs : Int)) (numGroups : Int)
    tryMap (fun i => buildGroup files interval i gs) (List.range numGroups)

/-- Closed form of the successful result of `getFrameNames` on an
already-sorted file list `sl`. -/
def expectedGroups (sl : List Nat) (ng gs : Nat) : List (List Nat) :=
  (List.range ng).map (fun i =>
    (List.range gs).map (fun j => sl.getD (i * ((sl.length - gs) / ng) + j) 0))

/-- An image: height, width, channel count, and pixel data indexed by
row, column and channel.  Pixel values are rationals. -/
structure Image where
  height : Nat
  width : Nat
  channels : Nat
  data : Nat → Nat → Nat → ℚ

instance : Inhabited Image := ⟨⟨0, 0, 0, fun _ _ _ => 0⟩⟩

/-- Resize to exactly `nh × nw` (albu.Resize).  Pixel lookup uses index
remapping; the exact interpolation kernel is immaterial to the claims,
which concern shapes and padding values. -/
def resizeImg (nh nw : Nat) (img : Image) : Image :=
  ⟨nh, nw, img.channels, fun i j c => img.data (i * img.height / nh) (j * img.width / nw) c⟩

/-- Round to nearest of `a / b` on naturals (ties upward), modelling
Python round of `dim * max_size / max(h, w)` in albu.LongestMaxSize. -/
def rndDiv (a b : Nat) : Nat := (2 * a + b) / (2 * b)

/-- albu.LongestMaxSize: scale so that the longest side becomes `m`,
keeping the aspect ratio. -/
def longestMaxSize (m : Nat) (img : Image) : Image :=
  let mx := max img.height img.width
  resizeImg (rndDiv (img.height * m) mx) (rndDiv (img.width * m) mx) img

/-- albu.PadIfNeeded with border_mode=BORDER_CONSTANT and value=(0,0,0):
pad to at least `mh × mw`, splitting the padding evenly (centre position),
filling padded pixels with zero. -/
def padIfNeeded (mh mw : Nat) (img : Image) : Image :=
  let nh := max img.height mh
  let nw := max img.width mw
  let top := (nh - img.height) / 2
  let left := (nw - img.width) / 2
  ⟨nh, nw, img.channels, fun i j c =>
    if top ≤ i ∧ i < top + img.height ∧ left ≤ j ∧ j < left + img.width then
      img.data (i - top) (j - left) c
    else 0⟩

/-- One stage of an albumentations Compose: an application probability,
the always_apply flag, and the transform, which receives one random
parameter draw (ignored by deterministic transforms). -/
structure Stage where
  prob : ℚ
  alwaysApply : Bool
  apply : ℚ → Image → Image

/-- albumentations Compose: run the stages in order; stage `k` is applied
when always_apply is set or its random draw falls below its probability.
`r` is the stream of uniform random draws, two per stage (one for the
application decision, one for the transform parameters). -/
def runStages : List Stage → (Nat → ℚ) → Nat → Image → Image
  | [], _, _, img => img
  | s :: rest, r, k, img =>
    let img2 := if s.alwaysApply || decide (r k < s.prob) then s.apply (r (k + 1)) img else img
    runStages rest r (k + 2) img2

/-- The inference-profile augmentation pipeline built by
`CustomDataset.__init__` when `augmentation=False`
(src/pipeline/dataset.py lines 41-47): LongestMaxSize, PadIfNeeded with a
zero constant border, Resize — all with always_apply=True and no random
parameters. -/
def inferenceStages (size : Nat) : List Stage :=
  [⟨1, true, fun _ => longestMaxSize size⟩,
   ⟨1, true, fun _ => padIfNeeded size size⟩,
   ⟨1, true, fun _ => resizeImg size size⟩]

/-- Apply the inference-profile pipeline to one image under random
stream `r`. -/
def inferenceAug (size : Nat) (r : Nat → ℚ) (img : Image) : Image :=
  runStages (inferenceStages size) r 0 img

/-- The additional_targets mechanism: the same composed transform, with
the same random draws, applied to both images of a pair
(`self.aug(image=volume[0], image0=volume[1])`). -/
def inferenceAugPair (size : Nat) (r : Nat → ℚ) (a b : Image) : Image × Image :=
  (inferenceAug size r a, inferenceAug size r b)

/-- Per-group body of `CustomDataset.__getitem__` (src/pipeline/dataset.py
lines 63-72): read every frame of the group into `volume`, feed
`volume[0]` and `volume[1]` to the pair augmentor, and stack the two
transformed images.  Frames after the second are read but never used. -/
def augGroup (size : Nat) (r : Nat → ℚ) (img : Nat → Image) (group : List Nat) :
    Except PyErr (List Image) :=
  let volume := group.map img
  match pyGet volume 0 with
  | .error e => .error e
  | .ok a =>
    match pyGet volume 1 with
    | .error e => .error e
    | .ok b => .ok [(inferenceAugPair size r a b).1, (inferenceAugPair size r a b).2]

/-- `CustomDataset.__getitem__` (src/pipeline/dataset.py lines 59-72) for
one track: sample the frame groups, then build the per-group stacks.
The track is its stem list `stems` plus the decoded frame images `img`;
the final ToTensor conversion keeps the group structure and is omitted. -/
def getItem (ng gs size : Nat) (r : Nat → ℚ) (stems : List Nat) (img : Nat → Image) :
    Except PyErr (List (List Image)) :=
  match getFrameNames ng gs stems with
  | .error e => .error e
  | .ok groups => tryMap (augGroup size r img) groups

/-- The loop of `infer` (src/inference.py lines 51-59): iterate the
dataloader over every track and collect the per-track sample volumes.
There is no try/except around the loop, so the first exception raised
while assembling a sample aborts the whole run.  The model forward and
loss bookkeeping cannot fail before the dataset does and are not part of
the claims about this loop. -/
def inferRun (ng gs size : Nat) (r : Nat → ℚ) (tracks : List (List Nat × (Nat → Image))) :
    Except PyErr (List (List (List Image))) :=
  tryMap (fun t => getItem ng gs size r t.1 t.2) tracks

/-- `Spatial.forward` (src/modules.py lines 32-35), verbatim: the
EfficientNet block output is bound to an auxiliary variable and the raw
input is returned. -/
def spatialForward {α : Type} (eff : α → α) (x : α) : α :=
  let x_ := eff x
  x

/-- The permutation `x.permute(0, 2, 1, 3, 4)` in `Spatiotemporal.forward`
at the level of tensor shapes: (n, d, c, h, w) becomes (n, c, d, h, w). -/
def permuteSpt : List Nat → Option (List Nat)
  | [n, d, c, h, w] => some [n, c, d, h, w]
  | _ => none

/-- Shape semantics of `nn.Conv3d(in_channels=3, out_channels=features,
kernel_size=(kd, 3, 3), stride=1, padding=(0, 1, 1))` from
`Spatiotemporal.__init__` (src/modules.py lines 52-58). -/
def conv3dShape (features kd : Nat) : List Nat → Option (List Nat)
  | [n, c, dd, h, w] =>
    if c = 3 ∧ kd ≤ dd ∧ 1 ≤ h ∧ 1 ≤ w then
      some [n, features, dd - kd + 1, h + 2 - 3 + 1, w + 2 - 3 + 1]
    else none
  | _ => none

/-- `x.squeeze()` with no argument: PyTorch removes every axis of size 1. -/
def squeezeAll (s : List Nat) : List Nat :=
  s.filter (fun x => x ≠ 1)

/-- Shape behaviour of `Spatiotemporal.forward` (src/modules.py lines
63-73) up to the point where the squeezed tensor is handed to the
EfficientNet block: permute, 3-D convolution, squeeze. -/
def sptForwardShape (features kd : Nat) (s : List Nat) : Option (List Nat) :=
  ((permuteSpt s).bind (conv3dShape features kd)).map squeezeAll

/-- The logistic sigmoid, `nn.Sigmoid`. -/
noncomputable def sigmoid (x : ℝ) : ℝ :=
  1 / (1 + Real.exp (-x))

/-- A fully connected layer, `nn.Linear(in_features=m, out_features=n)`:
weight matrix times input plus bias. -/
noncomputable def linearLayer {m n : Nat} (w : Fin n → Fin m → ℝ) (b : Fin n → ℝ)
    (x : Fin m → ℝ) : Fin n → ℝ :=
  fun i => (∑ j, w i j * x j) + b i

/-- The merging block of `TheModel.forward` (src/modules.py lines 142-148)
for one video: concatenate the `g * f` per-frame scores with the `g`
per-group scores, then sigmoid, `ln_1` (down to `g` units), sigmoid,
`ln_2` (down to one unit), sigmoid. -/
noncomputable def fusionHead (g f : Nat)
    (w1 : Fin g → Fin (g * f + g) → ℝ) (b1 : Fin g → ℝ)
    (w2 : Fin 1 → Fin g → ℝ) (b2 : Fin 1 → ℝ)
    (xspa : Fin (g * f) → ℝ) (xspt : Fin g → ℝ) : ℝ :=
  sigmoid (linearLayer w2 b2
    (fun i => sigmoid (linearLayer w1 b1
      (fun j => sigmoid (Fin.append xspa xspt j)) i)) 0)

/-- One record of a label-store JSON file: the record name and its
`is_fake` field (0 or 1 in the store, modelled as a Bool). -/
structure LabelEntry where
  name : String
  isFake : Bool

/-- Python `name.split('.')[0]`: the prefix of the record name before the
first dot (the whole name when there is no dot). -/
def recordKey (name : String) : String :=
  String.mk (name.data.takeWhile (fun c => c ≠ '.'))

/-- Python `float(details["is_fake"])`. -/
def floatIsFake (b : Bool) : ℚ :=
  if b then 1 else 0

/-- One Python dict assignment `labels[id] = v`: later writes overwrite
earlier ones. -/
def insertLabel (m : String → Option ℚ) (k : String) (v : ℚ) : String → Option ℚ :=
  fun q => if q = k then some v else m q

/-- `CustomDataset.get_labels` (src/pipeline/dataset.py lines 76-86): fold
over the label-store files in directory iteration order, and within each
file over its records, assigning `labels[name.split('.')[0]] =
float(details["is_fake"])`. -/
def getLabels (files : List (List LabelEntry)) : String → Option ℚ :=
  files.foldl
    (fun m entries =>
      entries.foldl (fun m2 e => insertLabel m2 (recordKey e.name) (floatIsFake e.isFake)) m)
    (fun _ => none)

/-- The binding that entry `e` contributes to key `k`, if any. -/
def labelSel (k : String) (e : LabelEntry) : Option ℚ :=
  if recordKey e.name = k then some (floatIsFake e.isFake) else none

theorem tryMap_ok {α β : Type} (f : α → Except PyErr β) (g : α → β) :
    ∀ l : List α, (∀ a ∈ l, f a = .ok (g a)) → tryMap f l = .ok (l.map g)
  | [], _ => rfl
  | a :: as, h => by
    have ha := h a (List.mem_cons_self a as)
    have hrest := tryMap_ok f g as (fun x hx => h x (List.mem_cons_of_mem a hx))
    simp [tryMap, ha, hrest]

theorem tryMap_error_head {α β : Type} (f : α → Except PyErr β) (a : α) (as : List α)
    (e : PyErr) (h : f a = .error e) : tryMap f (a :: as) = .error e := by
  simp [tryMap, h]

theorem tryMap_error_mid {α β : Type} (f : α → Except PyErr β) (e : PyErr) :
    ∀ (l1 : List α) (x : α) (l2 : List α),
      (∀ a ∈ l1, ∃ b, f a = .ok b) → f x = .error e →
      tryMap f (l1 ++ x :: l2) = .error e
  | [], x, l2, _, hx => by simp [tryMap, hx]
  | a :: as, x, l2, h, hx => by
    obtain ⟨b, hb⟩ := h a (List.mem_cons_self a as)
    have hrest := tryMap_error_mid f e as x l2 (fun y hy => h y (List.mem_cons_of_mem a hy)) hx
    simp [tryMap, hb, hrest]

theorem pyGet_nat_ok {α : Type} [Inhabited α] (l : List α) (n : Nat) (h : n < l.length) :
    pyGet l (n : Int) = .ok (l.getD n default) := by
  have h0 : (0 : Int) ≤ (n : Int) := Int.ofNat_nonneg n
  have h1 : (n : Int) < (l.length : Int) := by exact_mod_cast h
  simp [pyGet, h0, h1, Int.toNat_ofNat]

theorem pyGet_nat_err {α : Type} [Inhabited α] (l : List α) (n : Nat) (h : l.length ≤ n) :
    pyGet l (n : Int) = .error .indexError := by
  have h1 : ¬ ((n : Int) < (l.length : Int)) := by
    simp only [not_lt]
    exact_mod_cast h
  have h2 : ¬ ((n : Int) < 0) := by
    simp only [not_lt]
    exact Int.ofNat_nonneg n
  simp [pyGet, h1, h2]

theorem sortFiles_length (stems : List Nat) : (sortFiles stems).length = stems.length :=
  (List.perm_insertionSort (· ≤ ·) stems).length_eq

theorem sortFiles_eq_of_sorted (stems : List Nat) (h : stems.Sorted (· < ·)) :
    sortFiles stems = stems :=
  List.Sorted.insertionSort_eq (h.imp (fun hab => le_of_lt hab))

/-- The index `i * interval + j` used by the sampler stays inside the file
list whenever `gs ≤ L`, `i < ng` and `j < gs`. -/
theorem sample_index_lt (L ng gs i j : Nat) (hgs : gs ≤ L) (hi : i < ng) (hj : j < gs) :
    i * ((L - gs) / ng) + j < L := by
  have h1 : i * ((L - gs) / ng) ≤ ng * ((L - gs) / ng) :=
    Nat.mul_le_mul_right _ (Nat.le_of_lt hi)
  have h2 : ng * ((L - gs) / ng) ≤ L - gs := by
    rw [Nat.mul_comm]
    exact Nat.div_mul_le_self (L - gs) ng
  omega

/-- On any file list, with `ng ≥ 1` and `gs ≤` the number of files,
`get_frame_names` succeeds and returns exactly the groups given by the
index formula on the sorted list. -/
theorem getFrameNames_ok (stems : List Nat) (ng gs : Nat) (hng : 1 ≤ ng)
    (hgs : gs ≤ stems.length) :
    getFrameNames ng gs stems = .ok (expectedGroups (sortFiles stems) ng gs) := by
  have hng0 : ng ≠ 0 := by omega
  have hlen : (sortFiles stems).length = stems.length := sortFiles_length stems
  have hgs' : gs ≤ (sortFiles stems).length := by omega
  set sl := sortFiles stems with hsl
  set q : Nat := (sl.length - gs) / ng with hq
  have hivl : Int.fdiv ((sl.length : Int) - (gs : Int)) (ng : Int) = (q : Int) := by
    have hcast : ((sl.length : Int) - (gs : Int)) = ((sl.length - gs : Nat) : Int) := by
      omega
    rw [hcast, Int.fdiv_eq_ediv _ (Int.ofNat_nonneg ng)]
    rw [hq]
    exact (Int.ofNat_ediv (sl.length - gs) ng).symm
  unfold getFrameNames
  rw [if_neg hng0]
  show tryMap _ (List.range ng) = _
  rw [hivl]
  apply tryMap_ok
  intro i hi
  rw [List.mem_range] at hi
  unfold buildGroup
  apply tryMap_ok
  intro j hj
  rw [List.mem_range] at hj
  have hidx : i * q + j < sl.length := sample_index_lt sl.length ng gs i j hgs' hi hj
  have hcast : ((i : Int) * (q : Int) + (j : Int)) = ((i * q + j : Nat) : Int) := by
    push_cast
    ring
  rw [hcast, pyGet_nat_ok sl (i * q + j) hidx]
  rfl

theorem sigmoid_pos (x : ℝ) : 0 < sigmoid x := by
  have h : 0 < 1 + Real.exp (-x) := by positivity
  exact div_pos one_pos h

theorem sigmoid_lt_one (x : ℝ) : sigmoid x < 1 := by
  have h : 0 < 1 + Real.exp (-x) := by positivity
  rw [sigmoid, div_lt_one h]
  linarith [Real.exp_pos (-x)]

/-- A constant single-pixel test image used in concrete scenarios. -/
def blankImage : Image :=
  ⟨1, 1, 3, fun _ _ _ => 0⟩

/-- Claim C1: the claim says Spatial.forward(x) equals the EfficientNet
block applied to x.  The code computes the block output into an auxiliary
variable and returns the raw input instead, so Spatial.forward is the
identity; at the concrete input 5 with extractor fun n => n + 1 the
returned value 5 differs from the extractor output 6. -/
theorem c1_spatial_forward_returns_input :
    (∀ (α : Type) (eff : α → α) (x : α), spatialForward eff x = x) ∧
    spatialForward (fun n : Nat => n + 1) 5 = 5 ∧ (fun n : Nat => n + 1) 5 ≠ 5 :=
  ⟨fun _ _ _ => rfl, rfl, by decide⟩

/-- Claim C4, counterexample: with num_groups = 0 and the three-frame list
[0, 1, 2], get_frame_names raises ZeroDivisionError while computing the
interval; it does not return the empty sequence of groups. -/
theorem c4_counterexample_zero_groups_divides :
    getFrameNames 0 2 [0, 1, 2] = .error .zeroDivision ∧
    getFrameNames 0 2 [0, 1, 2] ≠ .ok [] :=
  ⟨rfl, fun h => Except.noConfusion h⟩

/-- Claim C4 as amended: for every frame-name list and group size, when
num_groups = 0 the Frame Sampler raises a division error (the interval
computation divides by zero before any group is built); it never returns
an empty group sequence. -/
theorem c4_amended_zero_groups_raises (gs : Nat) (stems : List Nat) :
    getFrameNames 0 gs stems = .error .zeroDivision := rfl

/-- Claim C5: on the batch shape (1, 2, 3, 4, 4) — batch 1, two frames per
group, three channels, 4 by 4 pixels — with 8 motion-difference features,
the permute and full-depth 3-D convolution produce shape (1, 8, 1, 4, 4),
but x.squeeze() removes every size-1 axis, so the batch axis is dropped
along with the depth axis: the code yields (8, 4, 4) where the claim
requires (1, 8, 4, 4). -/
theorem c5_squeeze_drops_batch_axis :
    sptForwardShape 8 2 [1, 2, 3, 4, 4] = some [8, 4, 4] ∧
    ([8, 4, 4] : List Nat) ≠ [1, 8, 4, 4] :=
  ⟨rfl, by decide⟩

/-- Claim C6: for every weight setting and every input scores vector, the
fusion head output — sigmoid, linear to g units, sigmoid, linear to one
unit, sigmoid — lies strictly between 0 and 1. -/
theorem c6_fusion_head_in_open_unit_interval (g f : Nat)
    (w1 : Fin g → Fin (g * f + g) → ℝ) (b1 : Fin g → ℝ)
    (w2 : Fin 1 → Fin g → ℝ) (b2 : Fin 1 → ℝ)
    (xspa : Fin (g * f) → ℝ) (xspt : Fin g → ℝ) :
    0 < fusionHead g f w1 b1 w2 b2 xspa xspt ∧ fusionHead g f w1 b1 w2 b2 xspa xspt < 1 :=
  ⟨sigmoid_pos _, sigmoid_lt_one _⟩

theorem getD_map_range {β : Type} [Inhabited β] (n : Nat) (f : Nat → β) (d : β) (i : Nat)
    (h : i < n) : ((List.range n).map f).getD i d = f i := by
  rw [List.getD_eq_getElem?_getD, List.getElem?_map, List.getElem?_range h]
  rfl

/-- Claim C2: on every strictly ascending frame-stem list with at least
group_size frames and num_groups at least one, the frame sampler returns
exactly num_groups groups of exactly group_size names; the entry at group
index i and offset j is the list element at position
i * ((total_frames - group_size) / num_groups) + j; every entry is a
member of the given list; stems strictly increase within each group; and
the 30-frame scenario with two groups of two yields frames 0, 1 and
14, 15. -/
theorem c2_frame_sampler_contract (l : List Nat) (ng gs : Nat) (hng : 1 ≤ ng)
    (hgs : gs ≤ l.length) (hsort : l.Sorted (· < ·)) :
    ∃ gr : List (List Nat),
      getFrameNames ng gs l = .ok gr ∧
      gr.length = ng ∧
      (∀ g ∈ gr, g.length = gs) ∧
      (∀ i j, i < ng → j < gs →
        (gr.getD i []).getD j 0 = l.getD (i * ((l.length - gs) / ng) + j) 0) ∧
      (∀ g ∈ gr, ∀ x ∈ g, x ∈ l) ∧
      (∀ g ∈ gr, g.Sorted (· < ·)) ∧
      getFrameNames 2 2 (List.range 30) = .ok [[0, 1], [14, 15]] := by
  have hse : sortFiles l = l := sortFiles_eq_of_sorted l hsort
  have hok : getFrameNames ng gs l = .ok (expectedGroups l ng gs) := by
    rw [getFrameNames_ok l ng gs hng hgs, hse]
  have hpair := List.pairwise_iff_get.mp hsort
  refine ⟨expectedGroups l ng gs, hok, ?_, ?_, ?_, ?_, ?_, rfl⟩
  · simp [expectedGroups]
  · intro g hg
    rw [expectedGroups, List.mem_map] at hg
    obtain ⟨i, _, rfl⟩ := hg
    simp
  · intro i j hi hj
    rw [expectedGroups, getD_map_range ng _ [] i hi, getD_map_range gs _ 0 j hj]
  · intro g hg x hx
    rw [expectedGroups, List.mem_map] at hg
    obtain ⟨i, hi, rfl⟩ := hg
    rw [List.mem_range] at hi
    rw [List.mem_map] at hx
    obtain ⟨j, hj, rfl⟩ := hx
    rw [List.mem_range] at hj
    have hidx : i * ((l.length - gs) / ng) + j < l.length :=
      sample_index_lt l.length ng gs i j hgs hi hj
    rw [List.getD_eq_getElem l 0 hidx]
    exact List.getElem_mem hidx
  · intro g hg
    rw [expectedGroups, List.mem_map] at hg
    obtain ⟨i, hi, rfl⟩ := hg
    rw [List.mem_range] at hi
    rw [List.Sorted, List.pairwise_map]
    have hr := List.pairwise_lt_range gs
    refine hr.imp_of_mem ?_
    intro a b ha hb hab
    rw [List.mem_range] at ha hb
    have hia : i * ((l.length - gs) / ng) + a < l.length :=
      sample_index_lt l.length ng gs i a hgs hi ha
    have hib : i * ((l.length - gs) / ng) + b < l.length :=
      sample_index_lt l.length ng gs i b hgs hi hb
    rw [List.getD_eq_getElem l 0 hia, List.getD_eq_getElem l 0 hib]
    have hlt := hpair ⟨_, hia⟩ ⟨_, hib⟩ (by exact Fin.mk_lt_mk.mpr (by omega))
    simpa [List.get_eq_getElem] using hlt

/-- Witness for claim C2: the 30-frame track with two groups of two. -/
theorem c2_frame_sampler_contract_witness :
    ∃ gr : List (List Nat),
      getFrameNames 2 2 (List.range 30) = .ok gr ∧
      gr.length = 2 ∧
      (∀ g ∈ gr, g.length = 2) ∧
      (∀ i j, i < 2 → j < 2 →
        (gr.getD i []).getD j 0 =
          (List.range 30).getD (i * (((List.range 30).length - 2) / 2) + j) 0) ∧
      (∀ g ∈ gr, ∀ x ∈ g, x ∈ List.range 30) ∧
      (∀ g ∈ gr, g.Sorted (· < ·)) ∧
      getFrameNames 2 2 (List.range 30) = .ok [[0, 1], [14, 15]] :=
  c2_frame_sampler_contract (List.range 30) 2 2 (by decide) (by decide) (by decide)

/-- Claim C3, counterexample: a track with the single frame 7 under
group_size 2 makes the frame sampler raise IndexError, and the inference
run over this track followed by a healthy two-frame track aborts with
that error — it does not skip the track and continue. -/
theorem c3_counterexample_run_aborts :
    getFrameNames 1 2 [7] = .error .indexError ∧
    inferRun 1 2 224 (fun _ => 0)
      [([7], fun _ => blankImage), ([3, 8], fun _ => blankImage)] =
      .error .indexError :=
  ⟨rfl, rfl⟩

/-- Claim C3 as amended: for every track with fewer frames than
group_size, the frame sampler raises IndexError while gathering the first
group, and because the inference loop has no exception handling the whole
run aborts with that error instead of skipping the track. -/
theorem c3_amended_sampler_error_aborts_run (ng gs size : Nat) (r : Nat → ℚ)
    (stems : List Nat) (img : Nat → Image) (rest : List (List Nat × (Nat → Image)))
    (hng : 1 ≤ ng) (hlt : stems.length < gs) :
    getFrameNames ng gs stems = .error .indexError ∧
    inferRun ng gs size r ((stems, img) :: rest) = .error .indexError := by
  have hfn : getFrameNames ng gs stems = .error .indexError := by
    unfold getFrameNames
    rw [if_neg (by omega)]
    obtain ⟨m, rfl⟩ : ∃ m, ng = m + 1 := ⟨ng - 1, by omega⟩
    rw [List.range_succ_eq_map]
    apply tryMap_error_head
    unfold buildGroup
    have hT : (sortFiles stems).length < gs := by
      rw [sortFiles_length]
      exact hlt
    set files := sortFiles stems with hfiles
    set T := files.length with hTdef
    obtain ⟨k, hk⟩ : ∃ k, gs - T = k + 1 := ⟨gs - T - 1, by omega⟩
    have hsplit : List.range gs =
        List.range T ++ (T + 0) :: ((List.range k).map Nat.succ).map (T + ·) := by
      have h1 : gs = T + (gs - T) := by omega
      rw [h1, List.range_add, hk, List.range_succ_eq_map, List.map_cons]
    rw [hsplit]
    apply tryMap_error_mid
    · intro a ha
      rw [List.mem_range] at ha
      refine ⟨files.getD a default, ?_⟩
      simp only [Nat.cast_zero, zero_mul, zero_add]
      exact pyGet_nat_ok files a ha
    · simp only [Nat.add_zero, Nat.cast_zero, zero_mul, zero_add]
      exact pyGet_nat_err files T (by omega)
  refine ⟨hfn, ?_⟩
  apply tryMap_error_head
  show getItem ng gs size r stems img = .error .indexError
  rw [getItem, hfn]

/-- Witness for the amended claim C3: two frames under group_size 3. -/
theorem c3_amended_sampler_error_witness :
    getFrameNames 2 3 [4, 9] = .error .indexError ∧
    inferRun 2 3 224 (fun _ => 0) [([4, 9], fun _ => blankImage)] = .error .indexError :=
  c3_amended_sampler_error_aborts_run 2 3 224 (fun _ => 0) [4, 9] (fun _ => blankImage) []
    (by decide) (by decide)

/-- Claim C8: the inference-profile pair augmentor is deterministic — its
output does not depend on the random stream, because every stage of the
inference profile has always_apply set and ignores the parameter draw, so
two applications to the same pair agree exactly. -/
theorem c8_inference_profile_deterministic (size : Nat) (r1 r2 : Nat → ℚ) (a b : Image) :
    inferenceAugPair size r1 a b = inferenceAugPair size r2 a b := by
  simp [inferenceAugPair, inferenceAug, inferenceStages, runStages]

/-- A 4000 by 100 test image (extreme aspect ratio). -/
def wideImage : Image :=
  ⟨100, 4000, 3, fun _ _ _ => 5⟩

/-- A 50 by 50 test image. -/
def smallImage : Image :=
  ⟨50, 50, 3, fun _ _ _ => 9⟩

/-- Claim C7: for every input pair, of any aspect ratio, both outputs of
the inference-profile pair augmentor have shape exactly
(img_size, img_size, channels); and every pixel that PadIfNeeded adds
outside the centred original window is zero (black). -/
theorem c7_inference_profile_shape_and_zero_pad (size : Nat) (r : Nat → ℚ) (a b : Image)
    (img : Image) (i j ch : Nat)
    (hout : i < (max img.height size - img.height) / 2 ∨
            (max img.height size - img.height) / 2 + img.height ≤ i ∨
            j < (max img.width size - img.width) / 2 ∨
            (max img.width size - img.width) / 2 + img.width ≤ j) :
    ((inferenceAugPair size r a b).1.height = size ∧
     (inferenceAugPair size r a b).1.width = size ∧
     (inferenceAugPair size r a b).1.channels = a.channels) ∧
    ((inferenceAugPair size r a b).2.height = size ∧
     (inferenceAugPair size r a b).2.width = size ∧
     (inferenceAugPair size r a b).2.channels = b.channels) ∧
    (padIfNeeded size size img).data i j ch = 0 := by
  refine ⟨⟨rfl, rfl, rfl⟩, ⟨rfl, rfl, rfl⟩, ?_⟩
  have hdata : (padIfNeeded size size img).data i j ch =
      if (max img.height size - img.height) / 2 ≤ i ∧
         i < (max img.height size - img.height) / 2 + img.height ∧
         (max img.width size - img.width) / 2 ≤ j ∧
         j < (max img.width size - img.width) / 2 + img.width then
        img.data (i - (max img.height size - img.height) / 2)
          (j - (max img.width size - img.width) / 2) ch
      else 0 := rfl
  rw [hdata, if_neg]
  rintro ⟨h1, h2, h3, h4⟩
  rcases hout with h | h | h | h <;> omega

/-- Witness for claim C7: the 4000 by 100 and 50 by 50 scenario at
img_size 224, checking the pixel at the top-left padding corner. -/
theorem c7_inference_profile_witness :
    (((inferenceAugPair 224 (fun _ => 0) wideImage smallImage).1.height = 224 ∧
      (inferenceAugPair 224 (fun _ => 0) wideImage smallImage).1.width = 224 ∧
      (inferenceAugPair 224 (fun _ => 0) wideImage smallImage).1.channels = wideImage.channels) ∧
     ((inferenceAugPair 224 (fun _ => 0) wideImage smallImage).2.height = 224 ∧
      (inferenceAugPair 224 (fun _ => 0) wideImage smallImage).2.width = 224 ∧
      (inferenceAugPair 224 (fun _ => 0) wideImage smallImage).2.channels = smallImage.channels) ∧
     (padIfNeeded 224 224 smallImage).data 0 0 0 = 0) :=
  c7_inference_profile_shape_and_zero_pad 224 (fun _ => 0) wideImage smallImage smallImage
    0 0 0 (by decide)

/-- Keep the first option when it is set, otherwise fall back to the
second (used to phrase dictionary last-write-wins lookups). -/
def lookupOr (a b : Option ℚ) : Option ℚ :=
  match a with
  | some v => some v
  | none => b

theorem foldl_insert_lookup (k : String) :
    ∀ (l : List LabelEntry) (m : String → Option ℚ),
      (l.foldl (fun m2 e => insertLabel m2 (recordKey e.name) (floatIsFake e.isFake)) m) k =
        lookupOr ((l.filterMap (labelSel k)).getLast?) (m k)
  | [], m => rfl
  | e :: rest, m => by
    have ih := foldl_insert_lookup k rest
      (insertLabel m (recordKey e.name) (floatIsFake e.isFake))
    rw [List.foldl_cons, ih]
    by_cases hkey : recordKey e.name = k
    · have hsel : labelSel k e = some (floatIsFake e.isFake) := by
        rw [labelSel, if_pos hkey]
      rw [List.filterMap_cons_some hsel]
      have hstep : insertLabel m (recordKey e.name) (floatIsFake e.isFake) k =
          some (floatIsFake e.isFake) := by
        rw [insertLabel, if_pos hkey.symm]
      rw [hstep]
      cases hrest : rest.filterMap (labelSel k) with
      | nil => rfl
      | cons w ws =>
        rw [List.getLast?_cons_cons]
        obtain ⟨z, hz⟩ : ∃ z, (w :: ws).getLast? = some z :=
          ⟨(w :: ws).getLast (by simp), List.getLast?_eq_getLast _ _⟩
        rw [hz]
        rfl
    · have hsel : labelSel k e = none := by
        rw [labelSel, if_neg hkey]
      rw [List.filterMap_cons_none hsel]
      have hstep : insertLabel m (recordKey e.name) (floatIsFake e.isFake) k = m k := by
        rw [insertLabel, if_neg (fun h => hkey h.symm)]
      rw [hstep]

theorem getLabels_foldl_flatten (files : List (List LabelEntry)) :
    ∀ m : String → Option ℚ,
      files.foldl
        (fun mm entries =>
          entries.foldl (fun m2 e => insertLabel m2 (recordKey e.name) (floatIsFake e.isFake)) mm)
        m =
      files.flatten.foldl
        (fun m2 e => insertLabel m2 (recordKey e.name) (floatIsFake e.isFake)) m := by
  induction files with
  | nil => intro m; rfl
  | cons es rest ih =>
    intro m
    rw [List.foldl_cons, List.flatten_cons, List.foldl_append, ih]

/-- Claim C9: the label resolver maps the record-name prefix before the
first dot to float(is_fake); when a key occurs several times the last
write — the later record in the later file, in directory iteration
order — wins, phrased as looking up the last matching binding of the
concatenated file contents; every stored lookup result is 0 or 1; and the
store file mapping "abc.mp4" to is_fake 1 makes lookup of "abc" give 1. -/
theorem c9_label_resolver_last_write_wins :
    (∀ (files : List (List LabelEntry)) (k : String),
      getLabels files k = (files.flatten.filterMap (labelSel k)).getLast?) ∧
    (∀ (files : List (List LabelEntry)) (k : String),
      getLabels files k = none ∨ getLabels files k = some 0 ∨ getLabels files k = some 1) ∧
    getLabels [[⟨"abc.mp4", true⟩]] "abc" = some 1 := by
  have hmain : ∀ (files : List (List LabelEntry)) (k : String),
      getLabels files k = (files.flatten.filterMap (labelSel k)).getLast? := by
    intro files k
    rw [getLabels, getLabels_foldl_flatten files, foldl_insert_lookup k]
    cases h : (files.flatten.filterMap (labelSel k)).getLast? <;> rfl
  refine ⟨hmain, ?_, rfl⟩
  intro files k
  rw [hmain files k]
  cases h : (files.flatten.filterMap (labelSel k)).getLast? with
  | none => exact Or.inl rfl
  | some v =>
    have hv : v ∈ files.flatten.filterMap (labelSel k) := List.mem_of_getLast?_eq_some h
    rw [List.mem_filterMap] at hv
    obtain ⟨e, _, he⟩ := hv
    rw [labelSel] at he
    by_cases hkey : recordKey e.name = k
    · rw [if_pos hkey] at he
      cases hb : e.isFake
      · right; left
        rw [hb] at he
        rw [← (Option.some_inj.mp he)]
        rfl
      · right; right
        rw [hb] at he
        rw [← (Option.some_inj.mp he)]
        rfl
    · rw [if_neg hkey] at he
      exact absurd he (Option.noConfusion)

/-- Claim C10: whatever group_size at least 2 is configured, a dataset
item always stacks exactly two frames per group — the pair fed to the
augmentor is volume[0] and volume[1], and later frames of the group are
read but discarded — while group_size 1 makes the volume[1] access raise
IndexError instead of yielding one-frame groups. -/
theorem c10_item_groups_have_exactly_two_frames (ng gs size : Nat) (r : Nat → ℚ)
    (stems : List Nat) (img : Nat → Image)
    (hng : 1 ≤ ng) (hgs : 2 ≤ gs) (hT : gs ≤ stems.length) :
    (∃ item, getItem ng gs size r stems img = .ok item ∧
      item.length = ng ∧ (∀ g ∈ item, g.length = 2)) ∧
    getItem ng 1 size r stems img = .error .indexError := by
  constructor
  · have hok := getFrameNames_ok stems ng gs hng hT
    have hred : getItem ng gs size r stems img =
        tryMap (augGroup size r img) (expectedGroups (sortFiles stems) ng gs) := by
      rw [getItem, hok]
    refine ⟨(expectedGroups (sortFiles stems) ng gs).map (fun group =>
      [(inferenceAugPair size r ((group.map img).getD 0 default)
          ((group.map img).getD 1 default)).1,
       (inferenceAugPair size r ((group.map img).getD 0 default)
          ((group.map img).getD 1 default)).2]), ?_, ?_, ?_⟩
    · rw [hred]
      apply tryMap_ok
      intro group hgroup
      have hglen : group.length = gs := by
        rw [expectedGroups, List.mem_map] at hgroup
        obtain ⟨i, _, rfl⟩ := hgroup
        simp
      have hvlen : (group.map img).length = gs := by
        rw [List.length_map, hglen]
      have h0 := pyGet_nat_ok (group.map img) 0 (by omega)
      rw [Nat.cast_zero] at h0
      have h1 := pyGet_nat_ok (group.map img) 1 (by omega)
      rw [Nat.cast_one] at h1
      simp only [augGroup, h0, h1]
    · rw [List.length_map, expectedGroups, List.length_map, List.length_range]
    · intro g hg
      rw [List.mem_map] at hg
      obtain ⟨group, _, rfl⟩ := hg
      rfl
  · have hok := getFrameNames_ok stems ng 1 hng (by omega)
    have hred : getItem ng 1 size r stems img =
        tryMap (augGroup size r img) (expectedGroups (sortFiles stems) ng 1) := by
      rw [getItem, hok]
    rw [hred]
    obtain ⟨m, rfl⟩ : ∃ m, ng = m + 1 := ⟨ng - 1, by omega⟩
    rw [expectedGroups, List.range_succ_eq_map m, List.map_cons]
    apply tryMap_error_head
    simp [augGroup, pyGet]

/-- Witness for claim C10: a two-frame track sampled as one group. -/
theorem c10_item_groups_witness :
    (∃ item, getItem 1 2 224 (fun _ => 0) [0, 1] (fun _ => blankImage) = .ok item ∧
      item.length = 1 ∧ (∀ g ∈ item, g.length = 2)) ∧
    getItem 1 1 224 (fun _ => 0) [0, 1] (fun _ => blankImage) = .error .indexError :=
  c10_item_groups_have_exactly_two_frames 1 2 224 (fun _ => 0) [0, 1] (fun _ => blankImage)
    (by decide) (by decide) (by decide)

end DFD
